import Mathlib

/-!
Verification of the ACS session manager of the amazon-ecs-agent repository.

The sources under verification contain the unit tests of the ACS session
handler (package `handler`) and of the websocket client (package `wsclient`);
the implementation files themselves (the `session` struct with `Start`,
`startACSSession`, `acsURL`, `isInactiveInstanceError`,
`computeReconnectDelay`, `shouldReconnectWithoutBackoff`, and the
`ClientServerImpl` with `Connect` and `ConsumeMessages`) are not among them.
Those functions are therefore modelled here from the specification and from
the expectations their unit tests pin down (exact URL strings, mock call
orders, environment-variable values), as noted on each definition.
-/

namespace ECSACS

/-- `listContainsSub pat s` decides whether `pat` occurs as a contiguous
substring of `s`, both given as character lists.  Mirrors Go
`strings.Contains(s, pat)`. -/
def listContainsSub (pat : List Char) : List Char → Bool
  | [] => pat.isEmpty
  | c :: t => pat.isPrefixOf (c :: t) || listContainsSub pat t

/-- Go `strings.Contains(s, pat)`. -/
def containsSubstr (s pat : String) : Bool :=
  listContainsSub pat.data s.data

/-- A Go `error` value, as consumed by the session loop.  `io.EOF` is a
distinguished sentinel in Go (compared by identity, not by message), so it is
a separate constructor; every other error is represented by its message. -/
inductive GoErr where
  | eof
  | mk (msg : String)
deriving DecidableEq

/-- The string `Error()` returns: `io.EOF.Error()` is `"EOF"`. -/
def GoErr.msg : GoErr → String
  | .eof => "EOF"
  | .mk m => m

/-- Modelled from the spec (§4.5, §9): the handler classifies an error as
inactive-instance by substring match on `"InactiveInstanceException"`
(function `isInactiveInstanceError` of the `handler` package, absent from the
sources; its tests are `TestIsInactiveInstanceError*`). -/
def isInactiveInstanceError (acsError : GoErr) : Bool :=
  containsSubstr acsError.msg "InactiveInstanceException"

/-- Modelled from the spec (§4.5): reconnect without backoff exactly on
end-of-stream (function `shouldReconnectWithoutBackoff` of the `handler`
package, absent from the sources; its tests are
`TestShouldReconnectWithoutBackoff*`). -/
def shouldReconnectWithoutBackoff (acsError : GoErr) : Bool :=
  acsError == GoErr.eof

/-- Modelled from the spec (§3, §4.5): the long-lived session state of the
`handler` package's `session` struct, restricted to the fields the claims
depend on.  `backoffDuration` stands for the value the stateful
`Backoff.Duration()` collaborator would return at the next call, and
`deregisterStreamListening` for whether the deregistration event stream has a
started listener (a publish to an unstarted stream fails). -/
structure Session where
  cluster : String
  containerInstanceARN : String
  engineVersion : String
  sendCredentials : Bool
  latestSeqNumTaskManifest : Option Int
  inactiveInstanceReconnectDelay : Nat
  backoffDuration : Nat
  deregisterStreamListening : Bool
deriving DecidableEq

/-- Modelled from the spec (§4.5): `session.computeReconnectDelay`, absent
from the sources; its tests are `TestComputeReconnectDelayFor*Instance`. -/
def computeReconnectDelay (s : Session) (isInactiveInstance : Bool) : Nat :=
  if isInactiveInstance then s.inactiveInstanceReconnectDelay
  else s.backoffDuration

/-- Modelled from the spec (§4.5): `NewSession` of the `handler` package
starts every session with `sendCredentials = true`
(test `TestHandlerCorrectlySetsSendCredentials` asserts the first connect
sees `true`). -/
def NewSession (cluster containerInstanceARN engineVersion : String)
    (latestSeqNumTaskManifest : Option Int)
    (inactiveInstanceReconnectDelay backoffDuration : Nat)
    (deregisterStreamListening : Bool) : Session :=
  { cluster, containerInstanceARN, engineVersion,
    sendCredentials := true,
    latestSeqNumTaskManifest, inactiveInstanceReconnectDelay,
    backoffDuration, deregisterStreamListening }

/-! ### The ACS URL builder -/

/-- Modelled from the spec: the agent's semantic version string
(`version.Version`; the `version` package is not among the sources, so a
placeholder value is used — no claim depends on the actual value). -/
def agentVersion : String := "1.0.0"

/-- Modelled from the spec: the agent's build hash (`version.GitHashString()`;
placeholder value, no claim depends on it). -/
def agentHash : String := "abcd1234"

/-- Modelled from the spec (§4.3): the ACS protocol version; the spec only
requires an integer greater than 1, and the agent uses 2. -/
def acsProtocolVersion : Nat := 2

/-- The name of the `sendCredentials` URL query parameter (constant
`sendCredentialsURLParameterName` of the `handler` package). -/
def sendCredentialsURLParameterName : String := "sendCredentials"

/-- Go `url.QueryEscape` keeps ASCII alphanumerics and `-_.~` unescaped. -/
def shouldEscape (c : Char) : Bool :=
  !(c.isAlphanum || c == '-' || c == '_' || c == '.' || c == '~')

/-- Uppercase hexadecimal digit for `n < 16`. -/
def hexDigit (n : Nat) : Char :=
  if n < 10 then Char.ofNat (48 + n) else Char.ofNat (55 + n)

/-- Go `url.QueryEscape` of a single ASCII character: space becomes `+`,
reserved characters become `%XX`. -/
def escapeChar (c : Char) : List Char :=
  if c == ' ' then ['+']
  else if shouldEscape c then ['%', hexDigit (c.toNat / 16), hexDigit (c.toNat % 16)]
  else [c]

/-- Go `url.QueryEscape` over a character list. -/
def escapeChars (cs : List Char) : List Char :=
  (cs.map escapeChar).flatten

/-- Go `url.Values.Encode`: `k1=v1&k2=v2&…` with keys and values escaped
(the keys are supplied already in the sorted order Encode produces). -/
def encodeQueryParams (ps : List (String × String)) : List Char :=
  List.intercalate ['&']
    (ps.map fun p => escapeChars p.1.data ++ '=' :: escapeChars p.2.data)

/-- Modelled from the spec (§4.3) and the unit tests `TestACSURL` and
`TestHandlerReconnectCorrectlySetsAcsUrl`: the query parameters of the
session URL, in the canonical sorted order Go's `url.Values.Encode` emits.
The tests fix `seqNum` to the literal `"1"` even when
`latestSeqNumTaskManifest` is `10` (see `TestHandlerReconnectCorrectlySetsAcsUrl`),
so `seqNum` is constant here, deviating from the spec's `seqNum` sentence. -/
def acsQueryParams (s : Session) : List (String × String) :=
  [("agentHash", agentHash),
   ("agentVersion", agentVersion),
   ("clusterArn", s.cluster),
   ("containerInstanceArn", s.containerInstanceARN),
   ("dockerVersion", "DockerVersion: " ++ s.engineVersion),
   ("protocolVersion", toString acsProtocolVersion),
   (sendCredentialsURLParameterName, if s.sendCredentials then "true" else "false"),
   ("seqNum", "1")]

/-- Append a `/` unless the endpoint already ends in one. -/
def ensureTrailingSlash (cs : List Char) : List Char :=
  if cs.getLast? = some '/' then cs else cs ++ ['/']

/-- Modelled from the spec (§4.3) and the unit tests: `session.acsURL`
produces `endpoint + "/ws?" + encoded query`. -/
def acsURL (s : Session) (endpoint : String) : String :=
  String.mk (ensureTrailingSlash endpoint.data ++ "ws?".data
    ++ encodeQueryParams (acsQueryParams s))

/-! ### A URL parser, to state the shape claim the way the test states it -/

/-- Drop everything up to and including the first occurrence of `pat`;
`none` when `pat` does not occur. -/
def afterSub (pat : List Char) : List Char → Option (List Char)
  | [] => if pat.isEmpty then some [] else none
  | c :: t =>
    if pat.isPrefixOf (c :: t) then some ((c :: t).drop pat.length)
    else afterSub pat t

/-- Split at the first occurrence of `sep` (separator removed); the second
component is empty when `sep` does not occur. -/
def breakAtChar (sep : Char) : List Char → List Char × List Char
  | [] => ([], [])
  | c :: t =>
    if c == sep then ([], t)
    else
      let r := breakAtChar sep t
      (c :: r.1, r.2)

/-- Split on every occurrence of `sep`. -/
def splitOnChar (sep : Char) : List Char → List (List Char)
  | [] => [[]]
  | c :: t =>
    let r := splitOnChar sep t
    if c == sep then [] :: r
    else
      match r with
      | [] => [[c]]
      | h :: t' => (c :: h) :: t'

/-- Numeric value of a hexadecimal digit. -/
def unhexDigit (c : Char) : Nat :=
  if c.toNat ≤ 57 then c.toNat - 48
  else if c.toNat ≤ 70 then c.toNat - 55
  else c.toNat - 87

/-- Inverse of query escaping: `+` becomes a space, `%XX` a character. -/
def unescapeChars : List Char → List Char
  | [] => []
  | '+' :: t => ' ' :: unescapeChars t
  | '%' :: a :: b :: t => Char.ofNat (16 * unhexDigit a + unhexDigit b) :: unescapeChars t
  | c :: t => c :: unescapeChars t

/-- Parse an absolute URL into its path and decoded query parameters, the
way Go's `url.Parse` plus `URL.Query()` present it to the tests. -/
def parseWsURL (u : String) : Option (String × List (String × String)) :=
  match afterSub "://".data u.data with
  | none => none
  | some rest =>
    let rest := rest.dropWhile (fun c => !(c == '/'))
    let pq := breakAtChar '?' rest
    let params := (splitOnChar '&' pq.2).map fun kv =>
      let r := breakAtChar '=' kv
      (String.mk (unescapeChars r.1), String.mk (unescapeChars r.2))
    some (String.mk pq.1, params)

/-! ### The session loop (`session.Start`), as a trace semantics

Modelled from the spec (§4.5, §7) and the `TestHandler*` unit tests: each
iteration of the outer loop is driven by the outcome its collaborators are
scripted to produce, and emits the observable events (the mock expectations
of the tests).  Cancellation of the session context is represented by the
end of the script. -/

/-- One scripted connection attempt: endpoint discovery failed, `Connect()`
failed, or `Connect()` succeeded and `Serve` later returned an error. -/
inductive Outcome where
  | discoverFail (e : GoErr)
  | connectFail (e : GoErr)
  | serveEnd (e : GoErr)
deriving DecidableEq

/-- The error an outcome hands to the classifier. -/
def Outcome.err : Outcome → GoErr
  | .discoverFail e => e
  | .connectFail e => e
  | .serveEnd e => e

/-- Observable events of the session loop: the mock calls the unit tests
set expectations on. -/
inductive Event where
  | attemptStart
  | connect (sendCredentials : Bool)
  | backoffReset
  | backoffDurationCall
  | deregisterPublish (delivered : Bool)
  | waitDelay (d : Nat)
deriving DecidableEq

/-- Modelled from the spec (§4.5 Classify/Delay): events emitted after an
attempt terminates with error `e`: EOF resets the backoff and reconnects
immediately; an inactive-instance error publishes one deregistration event
(best effort) and waits `inactiveInstanceReconnectDelay`; any other error
waits `Backoff.Duration()`. -/
def classifyTail (s : Session) (e : GoErr) : List Event :=
  if shouldReconnectWithoutBackoff e then
    [Event.backoffReset]
  else if isInactiveInstanceError e then
    [Event.deregisterPublish s.deregisterStreamListening,
     Event.waitDelay (computeReconnectDelay s true)]
  else
    [Event.backoffDurationCall,
     Event.waitDelay (computeReconnectDelay s false)]

/-- Events of one loop iteration.  A discovery failure never reaches
`Connect()`; otherwise `Connect()` is issued with the current
`sendCredentials` flag, and when `Connect()` succeeds the flag is cleared
before `Serve` runs (so the classification of a serve error sees the
cleared flag). -/
def iterEvents (s : Session) : Outcome → List Event
  | .discoverFail e => Event.attemptStart :: classifyTail s e
  | .connectFail e => Event.attemptStart :: Event.connect s.sendCredentials :: classifyTail s e
  | .serveEnd e =>
    Event.attemptStart :: Event.connect s.sendCredentials ::
      classifyTail { s with sendCredentials := false } e

/-- Session state after one iteration: `sendCredentials` is cleared exactly
when `Connect()` returned success (the attempt entered Serve). -/
def iterStep (s : Session) : Outcome → Session
  | .serveEnd _ => { s with sendCredentials := false }
  | _ => s

/-- Session state after a run. -/
def runState (s : Session) : List Outcome → Session
  | [] => s
  | o :: rest => runState (iterStep s o) rest

/-- Event trace of a run. -/
def runEvents (s : Session) : List Outcome → List Event
  | [] => []
  | o :: rest => iterEvents s o ++ runEvents (iterStep s o) rest

/-- Modelled from the spec (§4.5, §7): `session.Start` keeps looping over
connection attempts; when the session context is cancelled (the script
ends) it returns `nil` — never the cancellation error. -/
def start (s : Session) : List Outcome → List Event × Option GoErr
  | [] => ([], none)
  | o :: rest =>
    let next := start (iterStep s o) rest
    (iterEvents s o ++ next.1, next.2)

/-- The `sendCredentials` values carried by the `Connect()` calls of a
trace, in order. -/
def connectFlags (evts : List Event) : List Bool :=
  evts.filterMap fun e =>
    match e with
    | Event.connect b => some b
    | _ => none

/-- Recognizer for `Event.attemptStart`. -/
def isAttemptStart : Event → Bool
  | Event.attemptStart => true
  | _ => false

/-- Recognizer for deregistration publishes. -/
def isDeregisterPublish : Event → Bool
  | Event.deregisterPublish _ => true
  | _ => false

/-- Number of connection attempts started in a trace. -/
def numAttempts (evts : List Event) : Nat := evts.countP isAttemptStart

/-- Number of deregistration events published in a trace. -/
def numDeregisterPublishes (evts : List Event) : Nat := evts.countP isDeregisterPublish

/-! ### Heartbeat timer (ConnectionRun) -/

/-- Modelled from the spec (§4.6, §8.10): the inactivity timer of one
connection.  Armed at time `arm` with duration `timeout`; each inbound
frame arriving before expiry resets it; it fires at the first expiry no
frame pre-empts.  Given the (ascending) arrival times of inbound frames, it
returns the times at which the timer was (re)armed and the time at which it
fires and force-closes the ClientServer. -/
def heartbeatRun (timeout : Nat) : Nat → List Nat → List Nat × Nat
  | arm, [] => ([arm], arm + timeout)
  | arm, f :: rest =>
    if f < arm + timeout then
      let r := heartbeatRun timeout f rest
      (arm :: r.1, r.2)
    else ([arm], arm + timeout)

/-! ### `ClientServerImpl.Connect` environment effect (`NO_PROXY`) -/

/-- The metadata-service IPs prefix of the default `NO_PROXY` value
(test `TestProxyVariableDefaultValue`). -/
def noProxyDefaultPrefix : String := "169.254.169.254,169.254.170.2,"

/-- The path component of the configured Docker endpoint, as Go's
`url.Parse(cs.AgentConfig.DockerEndpoint).Path` extracts it from a
`unix://` URL. -/
def dockerHostPath (endpoint : String) : String :=
  if ("unix://".data).isPrefixOf endpoint.data then String.mk (endpoint.data.drop 7)
  else endpoint

/-- Modelled from the spec (§6, §9): the effect of
`ClientServerImpl.Connect` on the `NO_PROXY` environment variable (the
`wsclient` implementation is absent from the sources; its tests are
`TestProxyVariable*`).  When the variable is unset, `Connect` sets it to the
metadata-service IPs followed by the Docker endpoint path; a user-supplied
value is never overwritten. -/
def connectNoProxyEffect (noProxy : Option String) (dockerEndpoint : String) : Option String :=
  match noProxy with
  | some v => some v
  | none => some (noProxyDefaultPrefix ++ dockerHostPath dockerEndpoint)

/-! ### `ClientServerImpl.ConsumeMessages`: the read-deadline phase -/

/-- The Go `net` package's message fragment for operations on a closed
connection (constant `errClosed` of the `wsclient` package). -/
def errClosed : String := "use of closed network connection"

/-- Operations `ConsumeMessages` may perform on the underlying websocket
connection. -/
inductive ConnOp where
  | setReadDeadlineOp
  | setWriteDeadlineOp
  | closeOp
  | readFrameOp
deriving DecidableEq

/-- Modelled from the spec (§4.4) and the tests `TestSetReadDeadline*`:
`ClientServerImpl.SetReadDeadline`, given the result of the underlying
connection's `SetReadDeadline` call.  On success nothing else happens; a
connection-already-closed failure is returned as is; any other failure
forcefully closes the connection (write deadline, then `Close`) before the
error is returned. -/
def setReadDeadline (connResult : Option GoErr) : List ConnOp × Option GoErr :=
  match connResult with
  | none => ([ConnOp.setReadDeadlineOp], none)
  | some err =>
    if containsSubstr err.msg errClosed then ([ConnOp.setReadDeadlineOp], some err)
    else ([ConnOp.setReadDeadlineOp, ConnOp.setWriteDeadlineOp, ConnOp.closeOp], some err)

/-- Modelled from the spec (§4.4) and the tests `TestSetReadDeadline*`: the
first step of `ClientServerImpl.ConsumeMessages` — set the read deadline;
on failure return that error without reading a frame, otherwise proceed to
read the next frame. -/
def consumeMessages (connResult : Option GoErr) : List ConnOp × Option GoErr :=
  match setReadDeadline connResult with
  | (ops, some err) => (ops, some err)
  | (ops, none) => (ops ++ [ConnOp.readFrameOp], none)

/-! ### Concrete sessions used by the claims -/

/-- The session of `TestACSURL`: cluster `someCluster`, container instance
`myContainerInstance`, task-engine version `Docker version result`,
`sendCredentials = true`. -/
def testACSSession : Session :=
  { cluster := "someCluster", containerInstanceARN := "myContainerInstance",
    engineVersion := "Docker version result", sendCredentials := true,
    latestSeqNumTaskManifest := none, inactiveInstanceReconnectDelay := 0,
    backoffDuration := 0, deregisterStreamListening := true }

/-- A session whose `latestSeqNumTaskManifest` is 10, as configured by
`TestHandlerReconnectCorrectlySetsAcsUrl`. -/
def seq10Session : Session :=
  { testACSSession with latestSeqNumTaskManifest := some 10 }

/-- A freshly constructed session, as the `TestHandler*` tests configure it
(deregistration event stream started). -/
def witnessSession : Session :=
  NewSession "someCluster" "myArn" "Docker: 1.5.0" (some 10) 200 100 true

/-- A freshly constructed session whose deregistration event stream has no
started listener, as in `TestHandlerReconnectDelayForInactiveInstanceError`
(a publish to it fails). -/
def unlistenedSession : Session :=
  NewSession "someCluster" "myArn" "Docker: 1.5.0" (some 10) 200 100 false

/-- Recognizer for frame reads. -/
def isReadFrame : ConnOp → Bool
  | ConnOp.readFrameOp => true
  | _ => false

/-- Strict lexicographic order on character lists — the byte order on ASCII
strings under which Go's `url.Values.Encode` sorts the query keys. -/
def lexLt : List Char → List Char → Bool
  | [], [] => false
  | [], _ :: _ => true
  | _ :: _, [] => false
  | a :: as, b :: bs => Nat.blt a.toNat b.toNat || (a == b && lexLt as bs)

/-- Whether a list of strings is strictly sorted under `lexLt`. -/
def strictSortedKeys : List String → Bool
  | [] => true
  | [_] => true
  | a :: b :: t => lexLt a.data b.data && strictSortedKeys (b :: t)

/-! ## Theorems -/

/-! ### Shared lemmas about the session-loop trace -/

theorem runState_append (s : Session) (l₁ l₂ : List Outcome) :
    runState s (l₁ ++ l₂) = runState (runState s l₁) l₂ := by
  induction l₁ generalizing s with
  | nil => rfl
  | cons o rest ih => simp [runState, ih]

theorem runEvents_append (s : Session) (l₁ l₂ : List Outcome) :
    runEvents s (l₁ ++ l₂) = runEvents s l₁ ++ runEvents (runState s l₁) l₂ := by
  induction l₁ generalizing s with
  | nil => rfl
  | cons o rest ih => simp [runEvents, runState, ih]

theorem start_eq (s : Session) (script : List Outcome) :
    start s script = (runEvents s script, none) := by
  induction script generalizing s with
  | nil => rfl
  | cons o rest ih => simp [start, runEvents, ih]

theorem connectFlags_append (a b : List Event) :
    connectFlags (a ++ b) = connectFlags a ++ connectFlags b :=
  List.filterMap_append a b _

theorem connectFlags_classifyTail (s : Session) (e : GoErr) :
    connectFlags (classifyTail s e) = [] := by
  unfold classifyTail
  split
  · rfl
  · split <;> rfl

theorem connectFlags_iterEvents (s : Session) (o : Outcome) :
    connectFlags (iterEvents s o) =
      (match o with
       | Outcome.discoverFail _ => []
       | _ => [s.sendCredentials]) := by
  cases o with
  | discoverFail e =>
    simpa [iterEvents, connectFlags, List.filterMap_cons] using
      connectFlags_classifyTail s e
  | connectFail e =>
    have h := connectFlags_classifyTail s e
    simp only [connectFlags] at h
    simp [iterEvents, connectFlags, List.filterMap_cons, h]
  | serveEnd e =>
    have h := connectFlags_classifyTail { s with sendCredentials := false } e
    simp only [connectFlags] at h
    simp [iterEvents, connectFlags, List.filterMap_cons, h]

theorem connectFlags_false (s : Session) (script : List Outcome)
    (h : s.sendCredentials = false) :
    ∀ f ∈ connectFlags (runEvents s script), f = false := by
  induction script generalizing s with
  | nil => intro f hf; simp [runEvents, connectFlags] at hf
  | cons o rest ih =>
    intro f hf
    simp only [runEvents, connectFlags_append, connectFlags_iterEvents,
      List.mem_append] at hf
    rcases hf with hf | hf
    · cases o <;> simp_all
    · cases o with
      | discoverFail e => exact ih s h f (by simpa [iterStep] using hf)
      | connectFail e => exact ih s h f (by simpa [iterStep] using hf)
      | serveEnd e =>
        exact ih { s with sendCredentials := false } rfl f (by simpa [iterStep] using hf)

theorem connectFlags_shape (s : Session) (script : List Outcome) :
    ∃ m n, connectFlags (runEvents s script)
        = List.replicate m true ++ List.replicate n false
      ∧ (s.sendCredentials = false → m = 0) := by
  induction script generalizing s with
  | nil => exact ⟨0, 0, rfl, fun _ => rfl⟩
  | cons o rest ih =>
    cases o with
    | discoverFail e =>
      obtain ⟨m, n, hmn, h0⟩ := ih s
      refine ⟨m, n, ?_, h0⟩
      simp only [runEvents, connectFlags_append, connectFlags_iterEvents, iterStep,
        List.nil_append]
      exact hmn
    | connectFail e =>
      obtain ⟨m, n, hmn, h0⟩ := ih s
      by_cases hsc : s.sendCredentials = true
      · refine ⟨m + 1, n, ?_, by simp [hsc]⟩
        simp only [runEvents, connectFlags_append, connectFlags_iterEvents, iterStep,
          hsc, hmn, List.replicate_succ, List.singleton_append, List.cons_append,
          List.nil_append]
      · have hsc' : s.sendCredentials = false := by simpa using hsc
        have hm0 : m = 0 := h0 hsc'
        subst hm0
        refine ⟨0, n + 1, ?_, fun _ => rfl⟩
        simp only [runEvents, connectFlags_append, connectFlags_iterEvents, iterStep,
          hsc', hmn, List.replicate_succ, List.replicate_zero, List.nil_append,
          List.singleton_append, List.cons_append]
    | serveEnd e =>
      obtain ⟨m, n, hmn, h0⟩ := ih { s with sendCredentials := false }
      have hm0 : m = 0 := h0 rfl
      subst hm0
      simp only [List.replicate_zero, List.nil_append] at hmn
      by_cases hsc : s.sendCredentials = true
      · refine ⟨1, n, ?_, by simp [hsc]⟩
        simp only [runEvents, connectFlags_append, connectFlags_iterEvents, iterStep,
          hsc, hmn, List.replicate_succ, List.replicate_zero, List.nil_append,
          List.singleton_append]
      · have hsc' : s.sendCredentials = false := by simpa using hsc
        refine ⟨0, n + 1, ?_, fun _ => rfl⟩
        simp only [runEvents, connectFlags_append, connectFlags_iterEvents, iterStep,
          hsc', hmn, List.replicate_succ, List.replicate_zero, List.nil_append,
          List.singleton_append]

theorem connectFlags_head (s : Session) (script : List Outcome)
    (h : s.sendCredentials = true) :
    ∀ f, (connectFlags (runEvents s script)).head? = some f → f = true := by
  induction script generalizing s with
  | nil => intro f hf; simp [runEvents, connectFlags] at hf
  | cons o rest ih =>
    intro f hf
    simp only [runEvents, connectFlags_append, connectFlags_iterEvents] at hf
    cases o with
    | discoverFail e =>
      exact ih s h f (by simpa [iterStep] using hf)
    | connectFail e =>
      simp only [List.singleton_append, List.head?_cons, Option.some.injEq] at hf
      rw [← hf, h]
    | serveEnd e =>
      simp only [List.singleton_append, List.head?_cons, Option.some.injEq] at hf
      rw [← hf, h]

theorem numAttempts_classifyTail (s : Session) (e : GoErr) :
    (classifyTail s e).countP isAttemptStart = 0 := by
  unfold classifyTail
  split
  · rfl
  · split <;> rfl

theorem numAttempts_iterEvents (s : Session) (o : Outcome) :
    numAttempts (iterEvents s o) = 1 := by
  cases o <;>
    simp [numAttempts, iterEvents, List.countP_cons, isAttemptStart,
      numAttempts_classifyTail]

theorem numAttempts_runEvents (s : Session) (script : List Outcome) :
    numAttempts (runEvents s script) = script.length := by
  induction script generalizing s with
  | nil => rfl
  | cons o rest ih =>
    have h1 := numAttempts_iterEvents s o
    have h2 := ih (iterStep s o)
    simp only [numAttempts] at h1 h2
    simp only [runEvents, numAttempts, List.countP_append, h1, h2, List.length_cons]
    omega

theorem isInactive_eof : isInactiveInstanceError GoErr.eof = false := by decide

theorem numDereg_classifyTail (s : Session) (e : GoErr) :
    (classifyTail s e).countP isDeregisterPublish =
      (if isInactiveInstanceError e then 1 else 0) := by
  cases e with
  | eof =>
    simp [classifyTail, shouldReconnectWithoutBackoff, isInactive_eof,
      isDeregisterPublish]
  | mk m =>
    have hbe : (GoErr.mk m == GoErr.eof) = false := by
      simp [beq_eq_false_iff_ne]
    simp only [classifyTail, shouldReconnectWithoutBackoff, hbe, Bool.false_eq_true,
      if_false]
    split <;> simp [isDeregisterPublish]

theorem numDereg_iterEvents (s : Session) (o : Outcome) :
    numDeregisterPublishes (iterEvents s o) =
      (if isInactiveInstanceError o.err then 1 else 0) := by
  cases o with
  | discoverFail e =>
    simpa [iterEvents, numDeregisterPublishes, List.countP_cons, isDeregisterPublish,
      Outcome.err] using numDereg_classifyTail s e
  | connectFail e =>
    simpa [iterEvents, numDeregisterPublishes, List.countP_cons, isDeregisterPublish,
      Outcome.err] using numDereg_classifyTail s e
  | serveEnd e =>
    simpa [iterEvents, numDeregisterPublishes, List.countP_cons, isDeregisterPublish,
      Outcome.err] using numDereg_classifyTail { s with sendCredentials := false } e

theorem numDereg_runEvents (s : Session) (script : List Outcome) :
    numDeregisterPublishes (runEvents s script)
      = script.countP (fun o => isInactiveInstanceError o.err) := by
  induction script generalizing s with
  | nil => rfl
  | cons o rest ih =>
    have h1 := numDereg_iterEvents s o
    have h2 := ih (iterStep s o)
    simp only [numDeregisterPublishes] at h1 h2
    simp only [runEvents, numDeregisterPublishes, List.countP_append, h1, h2,
      List.countP_cons]
    split <;> simp_all
    omega

/-! ### Claim theorems -/

/-- Claim C3: for a session configured with cluster `someCluster`, container
instance `myContainerInstance`, a task engine whose `Version()` returns
`"Docker version result"`, and `sendCredentials` true, the URL produced by
`acsURL` parses with path `/ws` and has query parameters, in canonical
sorted order, exactly: `agentHash` = build hash, `agentVersion` = agent
version, `clusterArn=someCluster`, `containerInstanceArn=myContainerInstance`,
`dockerVersion` = `"DockerVersion: "` + the `Version()` result,
`protocolVersion` an integer greater than 1, `sendCredentials=true`,
`seqNum=1`. -/
theorem acsURL_shape :
    parseWsURL (acsURL testACSSession "http://endpoint.tld")
      = some ("/ws",
          [("agentHash", agentHash), ("agentVersion", agentVersion),
           ("clusterArn", "someCluster"),
           ("containerInstanceArn", "myContainerInstance"),
           ("dockerVersion", "DockerVersion: Docker version result"),
           ("protocolVersion", toString acsProtocolVersion),
           ("sendCredentials", "true"), ("seqNum", "1")])
    ∧ 1 < acsProtocolVersion
    ∧ strictSortedKeys ((acsQueryParams testACSSession).map Prod.fst) = true :=
  ⟨by decide, by decide, by decide⟩

/-- Claim C2 (counterexample): a session whose `latestSeqNumTaskManifest` is
`10` still produces `seqNum=1` in the URL built by `acsURL` — not `seqNum=10`
as the claim's example requires (the unit test
`TestHandlerReconnectCorrectlySetsAcsUrl` expects exactly this URL). -/
theorem acsURL_seqNum_counterexample :
    seq10Session.latestSeqNumTaskManifest = some 10
    ∧ (parseWsURL (acsURL seq10Session "http://endpoint.tld")).map
        (fun r => r.2.lookup "seqNum") = some (some "1")
    ∧ ("1" : String) ≠ toString (10 : Int) :=
  ⟨rfl, by decide, by decide⟩

/-- Claim C2 (amended): the `seqNum` query parameter emitted by the URL
builder is always the literal `1`, for every session — regardless of
`latestSeqNumTaskManifest`, present or absent. -/
theorem acsURL_seqNum_always_one (s : Session) :
    (acsQueryParams s).lookup "seqNum" = some "1" := rfl

/-- Claim C6: `isInactiveInstanceError err` holds exactly when `err`'s
message contains the substring `"InactiveInstanceException"` — so it holds
for an `"InactiveInstanceException: "` error and not for `io.EOF` — and
`computeReconnectDelay` returns the configured
`inactiveInstanceReconnectDelay` when the terminating error is
inactive-instance and the value of `Backoff.Duration()` otherwise. -/
theorem inactive_instance_error_classification (s : Session) (e : GoErr) :
    isInactiveInstanceError e = containsSubstr e.msg "InactiveInstanceException"
    ∧ isInactiveInstanceError (GoErr.mk "InactiveInstanceException: ") = true
    ∧ isInactiveInstanceError GoErr.eof = false
    ∧ computeReconnectDelay s (isInactiveInstanceError e)
        = (if isInactiveInstanceError e then s.inactiveInstanceReconnectDelay
           else s.backoffDuration) :=
  ⟨rfl, by decide, by decide, rfl⟩

/-- Claim C9: `Connect` sets `NO_PROXY` to
`"169.254.169.254,169.254.170.2,"` followed by the Docker endpoint path when
the variable is unset, and leaves a user-supplied value unchanged. -/
theorem no_proxy_default_only_when_unset (v dockerEndpoint : String) :
    connectNoProxyEffect none "unix:///var/run/docker.sock"
        = some "169.254.169.254,169.254.170.2,/var/run/docker.sock"
    ∧ connectNoProxyEffect none dockerEndpoint
        = some (noProxyDefaultPrefix ++ dockerHostPath dockerEndpoint)
    ∧ connectNoProxyEffect (some v) dockerEndpoint = some v :=
  ⟨by decide, rfl, rfl⟩

/-- Claim C10: when setting the read deadline at the start of
`ConsumeMessages` fails, `ConsumeMessages` returns that error without
reading any frame; a connection-already-closed failure triggers no further
close, and any other failure tears the connection down (write deadline,
then `Close`) before the error is returned. -/
theorem consumeMessages_read_deadline_failure (err : GoErr) :
    consumeMessages (some err)
      = (if containsSubstr err.msg errClosed
         then [ConnOp.setReadDeadlineOp]
         else [ConnOp.setReadDeadlineOp, ConnOp.setWriteDeadlineOp, ConnOp.closeOp],
         some err)
    ∧ (consumeMessages (some err)).1.countP isReadFrame = 0
    ∧ consumeMessages none = ([ConnOp.setReadDeadlineOp, ConnOp.readFrameOp], none) := by
  by_cases h : containsSubstr err.msg errClosed = true
  · exact ⟨by simp [consumeMessages, setReadDeadline, h],
      by simp [consumeMessages, setReadDeadline, h, isReadFrame], rfl⟩
  · exact ⟨by simp [consumeMessages, setReadDeadline, h],
      by simp [consumeMessages, setReadDeadline, h, isReadFrame], rfl⟩

/-- Claim C1: for every session whose `sendCredentials` flag is `true` (as
`NewSession` initializes it) and every run of the loop: the first
`Connect()` issued sees the flag `true`; the flag values seen by successive
`Connect()` calls form a block of `true`s followed by a block of `false`s —
the flag transitions true→false at most once and never back; and once an
attempt's `Connect()` has returned success (the connection entered Serve),
every `Connect()` of every later attempt sees `false`, however many times
`startACSSession` runs. -/
theorem sendCredentials_transition (s : Session) (script : List Outcome)
    (h : s.sendCredentials = true) :
    (∀ f, (connectFlags (runEvents s script)).head? = some f → f = true)
    ∧ (∃ m n, connectFlags (runEvents s script)
        = List.replicate m true ++ List.replicate n false)
    ∧ (∀ pre e post, script = pre ++ Outcome.serveEnd e :: post →
        runEvents s script
          = runEvents s (pre ++ [Outcome.serveEnd e])
            ++ runEvents (runState s (pre ++ [Outcome.serveEnd e])) post
        ∧ ∀ f ∈ connectFlags
            (runEvents (runState s (pre ++ [Outcome.serveEnd e])) post), f = false) := by
  refine ⟨connectFlags_head s script h, ?_, ?_⟩
  · obtain ⟨m, n, hmn, _⟩ := connectFlags_shape s script
    exact ⟨m, n, hmn⟩
  · intro pre e post hscript
    have hdec : script = (pre ++ [Outcome.serveEnd e]) ++ post := by simp [hscript]
    have hsc : (runState s (pre ++ [Outcome.serveEnd e])).sendCredentials = false := by
      rw [runState_append]; rfl
    exact ⟨by rw [hdec, runEvents_append], connectFlags_false _ post hsc⟩

/-- Witness for C1 at a concrete session and script: a fresh session, one
successful connect whose serve ends in EOF, then one failed connect. -/
theorem sendCredentials_transition_witness :
    (∃ m n, connectFlags (runEvents witnessSession
        [Outcome.serveEnd GoErr.eof, Outcome.connectFail GoErr.eof])
      = List.replicate m true ++ List.replicate n false)
    ∧ (∀ f ∈ connectFlags
        (runEvents (runState witnessSession [Outcome.serveEnd GoErr.eof])
          [Outcome.connectFail GoErr.eof]), f = false) := by
  refine ⟨(sendCredentials_transition witnessSession
      [Outcome.serveEnd GoErr.eof, Outcome.connectFail GoErr.eof] rfl).2.1, ?_⟩
  have h := (sendCredentials_transition witnessSession
      [Outcome.serveEnd GoErr.eof, Outcome.connectFail GoErr.eof] rfl).2.2
      [] GoErr.eof [Outcome.connectFail GoErr.eof] rfl
  exact fun f hf => h.2 f (by simpa using hf)

/-- Claim C4: `Start()` returns exactly on cancellation of the session
context (the end of the script), in which case it returns `nil` rather than
the cancellation error; every scripted transient failure — discovery,
`Connect()`, or `Serve` — is processed as one attempt without terminating
the loop, and after any failure script a further outcome yields a further
attempt. -/
theorem start_returns_nil_and_keeps_retrying (s : Session) (script : List Outcome)
    (o : Outcome) :
    (start s script).2 = none
    ∧ numAttempts (start s script).1 = script.length
    ∧ (start s (script ++ [o])).1
        = (start s script).1 ++ iterEvents (runState s script) o := by
  rw [start_eq s script, start_eq s (script ++ [o])]
  refine ⟨rfl, numAttempts_runEvents s script, ?_⟩
  rw [runEvents_append]
  simp [runEvents]

/-- Claim C5: `shouldReconnectWithoutBackoff` holds exactly for `io.EOF`;
after an attempt terminating in EOF the loop invokes `Backoff.Reset()` and
the next `Connect()` follows with no `Backoff.Duration()` call and no delay;
after a non-EOF, non-inactive-instance error the loop invokes
`Backoff.Duration()` — and not `Reset()` — before waiting and reconnecting. -/
theorem eof_fast_reconnect_policy (s : Session) (e : GoErr) (rest : List Outcome) :
    shouldReconnectWithoutBackoff e = (e == GoErr.eof)
    ∧ (e = GoErr.eof →
        runEvents s (Outcome.connectFail e :: rest)
          = Event.attemptStart :: Event.connect s.sendCredentials ::
              Event.backoffReset :: runEvents s rest
        ∧ runEvents s (Outcome.serveEnd e :: rest)
          = Event.attemptStart :: Event.connect s.sendCredentials ::
              Event.backoffReset ::
                runEvents { s with sendCredentials := false } rest)
    ∧ (e ≠ GoErr.eof → isInactiveInstanceError e = false →
        runEvents s (Outcome.connectFail e :: rest)
          = Event.attemptStart :: Event.connect s.sendCredentials ::
              Event.backoffDurationCall ::
                Event.waitDelay s.backoffDuration :: runEvents s rest
        ∧ runEvents s (Outcome.serveEnd e :: rest)
          = Event.attemptStart :: Event.connect s.sendCredentials ::
              Event.backoffDurationCall ::
                Event.waitDelay s.backoffDuration ::
                  runEvents { s with sendCredentials := false } rest) := by
  refine ⟨rfl, ?_, ?_⟩
  · rintro rfl
    constructor <;>
      simp [runEvents, iterEvents, iterStep, classifyTail, shouldReconnectWithoutBackoff]
  · intro hne hia
    have hb : (e == GoErr.eof) = false := by simp [beq_eq_false_iff_ne, hne]
    constructor <;>
      simp [runEvents, iterEvents, iterStep, classifyTail, shouldReconnectWithoutBackoff,
        hb, hia, computeReconnectDelay]

/-- Witness for C5 at concrete inputs: an EOF connect failure reconnects
after only a `Reset()`; a `"not EOF"` failure waits `Backoff.Duration()`
with no `Reset()`. -/
theorem eof_fast_reconnect_policy_witness :
    runEvents witnessSession [Outcome.connectFail GoErr.eof]
      = [Event.attemptStart, Event.connect true, Event.backoffReset]
    ∧ runEvents witnessSession [Outcome.connectFail (GoErr.mk "not EOF")]
      = [Event.attemptStart, Event.connect true, Event.backoffDurationCall,
         Event.waitDelay 100] := by
  constructor
  · have h := ((eof_fast_reconnect_policy witnessSession GoErr.eof []).2.1 rfl).1
    simpa [witnessSession, NewSession, runEvents] using h
  · have h := ((eof_fast_reconnect_policy witnessSession (GoErr.mk "not EOF") []).2.2
      (by decide) (by decide)).1
    simpa [witnessSession, NewSession, runEvents] using h

/-- Claim C7: an attempt terminating with an inactive-instance error
publishes exactly one deregistration event — whether or not the stream has
a started listener (`deregisterStreamListening` is arbitrary, so a failed
publish changes nothing) — and the loop then waits
`inactiveInstanceReconnectDelay` and continues with the rest of the run; in
any run, the number of deregistration publishes equals the number of
inactive-instance terminations. -/
theorem deregistration_event_policy (s : Session) (e : GoErr)
    (rest script : List Outcome) :
    (isInactiveInstanceError e = true →
      runEvents s (Outcome.connectFail e :: rest)
        = Event.attemptStart :: Event.connect s.sendCredentials ::
            Event.deregisterPublish s.deregisterStreamListening ::
              Event.waitDelay s.inactiveInstanceReconnectDelay :: runEvents s rest)
    ∧ numDeregisterPublishes (runEvents s script)
        = script.countP (fun o => isInactiveInstanceError o.err) := by
  refine ⟨?_, numDereg_runEvents s script⟩
  intro hia
  have hne : e ≠ GoErr.eof := by
    intro hcontra
    rw [hcontra, isInactive_eof] at hia
    exact Bool.false_ne_true hia
  have hb : (e == GoErr.eof) = false := by simp [beq_eq_false_iff_ne, hne]
  simp [runEvents, iterEvents, iterStep, classifyTail, shouldReconnectWithoutBackoff,
    hb, hia, computeReconnectDelay]

/-- Witness for C7 at a concrete session whose deregistration stream has no
started listener: the publish (which fails) is still followed by the
inactive-instance delay, and exactly one event is produced. -/
theorem deregistration_event_policy_witness :
    runEvents unlistenedSession
        [Outcome.connectFail (GoErr.mk "InactiveInstanceException: ")]
      = [Event.attemptStart, Event.connect true,
         Event.deregisterPublish false, Event.waitDelay 200]
    ∧ numDeregisterPublishes (runEvents unlistenedSession
        [Outcome.connectFail (GoErr.mk "InactiveInstanceException: ")]) = 1 := by
  constructor
  · have h := (deregistration_event_policy unlistenedSession
      (GoErr.mk "InactiveInstanceException: ") [] []).1 (by decide)
    simpa [unlistenedSession, NewSession, runEvents] using h
  · have h := (deregistration_event_policy unlistenedSession
      (GoErr.mk "InactiveInstanceException: ") []
      [Outcome.connectFail (GoErr.mk "InactiveInstanceException: ")]).2
    rw [h]
    decide

theorem heartbeatRun_resets_mem (timeout : Nat) (frames : List Nat) :
    ∀ arm, ∀ t ∈ (heartbeatRun timeout arm frames).1, t = arm ∨ t ∈ frames := by
  induction frames with
  | nil => intro arm t ht; left; simpa [heartbeatRun] using ht
  | cons f rest ih =>
    intro arm t ht
    by_cases h : f < arm + timeout
    · simp only [heartbeatRun, h, if_true] at ht
      rcases List.mem_cons.mp ht with h1 | h1
      · left; exact h1
      · rcases ih f t h1 with h2 | h2
        · right; simp [h2]
        · right; simp [h2]
    · simp only [heartbeatRun, h, if_false] at ht
      left; simpa using ht

theorem heartbeatRun_resets_head (timeout arm : Nat) (frames : List Nat) :
    ∃ tl, (heartbeatRun timeout arm frames).1 = arm :: tl := by
  cases frames with
  | nil => exact ⟨[], rfl⟩
  | cons f rest =>
    by_cases h : f < arm + timeout
    · exact ⟨(heartbeatRun timeout f rest).1, by simp [heartbeatRun, h]⟩
    · exact ⟨[], by simp [heartbeatRun, h]⟩

theorem heartbeatRun_frames_reset (timeout : Nat) :
    ∀ frames, List.Sorted (· ≤ ·) frames → ∀ arm, ∀ f ∈ frames,
      f < (heartbeatRun timeout arm frames).2 →
        f ∈ (heartbeatRun timeout arm frames).1 := by
  intro frames
  induction frames with
  | nil => intro _ arm f hf; simp at hf
  | cons g rest ih =>
    intro hsorted arm f hf hlt
    by_cases h : g < arm + timeout
    · rcases List.mem_cons.mp hf with rfl | hmem
      · obtain ⟨tl, htl⟩ := heartbeatRun_resets_head timeout f rest
        simp [heartbeatRun, h, htl]
      · have hs' := (List.sorted_cons.mp hsorted).2
        have hlt' : f < (heartbeatRun timeout g rest).2 := by
          simpa [heartbeatRun, h] using hlt
        have hresets := ih hs' g f hmem hlt'
        simp [heartbeatRun, h, List.mem_cons, hresets]
    · have hgf : g ≤ f := by
        rcases List.mem_cons.mp hf with rfl | hmem
        · exact Nat.le_refl f
        · exact (List.sorted_cons.mp hsorted).1 f hmem
      have hclose : (heartbeatRun timeout arm (g :: rest)).2 = arm + timeout := by
        simp [heartbeatRun, h]
      rw [hclose] at hlt
      omega

/-- Claim C8: on a connection with no inbound frame within the heartbeat
timeout, the timer fires — and force-closes the ClientServer — at
`timeout`, hence before a `Serve` that would only return later of its own
accord (e.g. timeout 20 ms against a silent 30 ms `Serve`); moreover the
timer is reset only at arming time and on inbound frames, and on every
inbound frame that arrives before it fires. -/
theorem heartbeat_forces_close (timeout serveReturn : Nat) (frames : List Nat) :
    ((∀ f ∈ frames, timeout ≤ f) →
      (heartbeatRun timeout 0 frames).2 = timeout
      ∧ (timeout < serveReturn → (heartbeatRun timeout 0 frames).2 < serveReturn))
    ∧ (∀ arm, ∀ t ∈ (heartbeatRun timeout arm frames).1, t = arm ∨ t ∈ frames)
    ∧ (List.Sorted (· ≤ ·) frames →
        ∀ f ∈ frames, f < (heartbeatRun timeout 0 frames).2 →
          f ∈ (heartbeatRun timeout 0 frames).1) := by
  refine ⟨?_, heartbeatRun_resets_mem timeout frames,
    fun hs => heartbeatRun_frames_reset timeout frames hs 0⟩
  intro hf
  have h2 : (heartbeatRun timeout 0 frames).2 = timeout := by
    cases frames with
    | nil => simp [heartbeatRun]
    | cons f rest =>
      have hle : timeout ≤ f := hf f (List.mem_cons_self f rest)
      have hnlt : ¬ f < timeout := by omega
      simp [heartbeatRun, hnlt]
  exact ⟨h2, fun h => by rw [h2]; exact h⟩

/-- Witness for C8 at the test's constants: heartbeat timeout 20 ms, a
`Serve` silent for 30 ms — the close fires at 20 ms, before `Serve`
returns. -/
theorem heartbeat_forces_close_witness :
    (heartbeatRun 20 0 []).2 = 20 ∧ (heartbeatRun 20 0 []).2 < 30 := by
  refine ⟨((heartbeat_forces_close 20 30 []).1 ?_).1,
    ((heartbeat_forces_close 20 30 []).1 ?_).2 (by decide)⟩ <;>
    intro f hf <;> exact absurd hf (List.not_mem_nil f)

end ECSACS
